import Mathlib

/-!
Verification development for the qrules reaction-topology / combinatorics /
conservation-rule core.  The repository snapshot ships only the test suite, so
every definition below is a shallow embedding modelled from the natural-language
specification (`spec.md`), with the behavioural details pinned by the unit
tests.  Numeric quantum numbers are modelled as rationals, particle data as
plain structures, and fallible constructors as `Except`/`Option` values.
-/

namespace QRules

/-! ## Spin -/

/-- Modelled from the spec: `Spin` is a (magnitude, projection) pair of
rational numbers (spec §3).  The validation invariants live in `mkSpin`;
the structure itself is the raw value, as in the Python class. -/
structure Spin where
  magnitude : ℚ
  projection : ℚ
deriving DecidableEq

/-- Helper: `true` exactly when an `Except` value is `ok`. -/
def exceptIsOk {ε α : Type} : Except ε α → Bool
  | .ok _ => true
  | .error _ => false

/-- Helper: drop the error message of an `Except` value. -/
def exceptToOption {ε α : Type} : Except ε α → Option α
  | .ok a => some a
  | .error _ => none

/-- Modelled from the spec: the validating `Spin` constructor (missing
`qrules.particle.Spin.__attrs_post_init__`).  Spec §3: magnitude ≥ 0,
magnitude a non-negative multiple of ½, `projection − magnitude` an integer,
`|projection| ≤ magnitude`; any violation is a fatal `ValueError`.  Check
order and messages follow `TestSpin.test_exceptions`. -/
def mkSpin (magnitude projection : ℚ) : Except String Spin :=
  if (2 * magnitude).den ≠ 1 then
    .error "Spin magnitude has to be a multitude of 0.5"
  else if (projection - magnitude).den ≠ 1 then
    .error "(projection - magnitude) should be integer"
  else if magnitude < 0 then
    .error "Spin magnitude has to be positive"
  else if magnitude < |projection| then
    .error "Absolute value of spin projection cannot be larger than the magnitude"
  else
    .ok ⟨magnitude, projection⟩

/-! ## C-parity conservation rule -/

/-- Modelled from the spec: per-edge input of the C-parity rule (spec §4.3;
`qrules.conservation_rules.CParityEdgeInput` is missing from the snapshot).
An absent `c_parity` means "to be derived", not zero. -/
structure CParityEdgeInput where
  spin_magnitude : ℚ
  pid : Int
  c_parity : Option Int
deriving DecidableEq

/-- Modelled from the spec: node-level coupling input `(l, s)` of the C-parity
rule, non-negative rationals in steps of ½ (spec §4.3). -/
structure CParityNodeInput where
  l_magnitude : ℚ
  s_magnitude : ℚ
deriving DecidableEq

/-- Product of the C-parities of a side of the node; `none` when any edge on
that side still has its C-parity undefined. -/
def cParityProduct : List CParityEdgeInput → Option Int
  | [] => some 1
  | e :: rest =>
    match e.c_parity, cParityProduct rest with
    | some c, some r => some (c * r)
    | _, _ => none

/-- Modelled from the spec: the C-parity derived for a boson
particle/antiparticle pair is `(−1)^l` (spec §4.3); defined only when the
orbital angular momentum `l` is an integer. -/
def derivedBosonCParity (l : ℚ) : Option Int :=
  if l.den = 1 then some (if l.num % 2 = 0 then 1 else -1) else none

/-- Modelled from the spec: check of the side whose C-parity product is still
undefined, against the defined side's product `c` (spec §4.3).  The undefined
side must be exactly two edges forming a particle/antiparticle-like pair
distinguished only by the sign of `pid`; a boson pair (integer spin magnitude)
derives `(−1)^l`, a fermion pair (half-integer spin magnitude) requires
`(s + l) mod 2 = (1 − c)/2`; any other shape is vacuously conserved. -/
def cParityDerivedCheck (undefinedSide : List CParityEdgeInput) (c : Int)
    (node : Option CParityNodeInput) : Bool :=
  match undefinedSide, node with
  | [e1, e2], some n =>
    if e1.pid == -e2.pid && e1.spin_magnitude == e2.spin_magnitude then
      if e1.spin_magnitude.den == 1 then
        match derivedBosonCParity n.l_magnitude with
        | some d => d == c
        | none => true
      else if e1.spin_magnitude.den == 2 then
        if (n.s_magnitude + n.l_magnitude).den == 1 then
          (n.s_magnitude + n.l_magnitude).num % 2 == (1 - c) / 2
        else true
      else true
    else true
  | _, _ => true

/-- Modelled from the spec: the C-parity conservation rule (spec §4.3;
`qrules.conservation_rules.c_parity_conservation` is missing from the
snapshot).  If both sides have all C-parities defined, conserved iff the
products agree; if exactly one side is undefined, its C-parity is derived from
the node's `(l, s)` via `cParityDerivedCheck`; otherwise vacuously true. -/
def c_parity_conservation (ingoing outgoing : List CParityEdgeInput)
    (node : Option CParityNodeInput) : Bool :=
  match cParityProduct ingoing, cParityProduct outgoing with
  | some ci, some co => ci == co
  | some ci, none => cParityDerivedCheck outgoing ci node
  | none, some co => cParityDerivedCheck ingoing co node
  | none, none => true

/-! ## Particle and ParticleCollection -/

/-- Modelled from the spec: an immutable `Particle` value (spec §3;
`qrules.particle.Particle` is missing from the snapshot): name, `pid`, mass,
width, spin magnitude, charge, optional isospin / parity / C-parity /
G-parity, the flavour quantum numbers strangeness, charmness, bottomness,
topness, and baryon number.  Masses and widths are modelled as rationals. -/
structure Particle where
  name : String
  pid : Int
  mass : ℚ
  width : ℚ
  spin : ℚ
  charge : Int
  isospin : Option Spin
  parity : Option Int
  c_parity : Option Int
  g_parity : Option Int
  strangeness : Int
  charmness : Int
  bottomness : Int
  topness : Int
  baryon_number : Int
deriving DecidableEq

/-- Modelled from the spec: Python `Particle.__eq__` compares every quantum
number (mass and width included) but neither `name` nor `pid` — "name/pid are
labels, not identity" (spec §3, pinned by `TestParticle.test_eq`). -/
def Particle.peq (p q : Particle) : Bool :=
  decide (p.mass = q.mass) && decide (p.width = q.width) &&
  decide (p.spin = q.spin) && decide (p.charge = q.charge) &&
  decide (p.isospin = q.isospin) && decide (p.parity = q.parity) &&
  decide (p.c_parity = q.c_parity) && decide (p.g_parity = q.g_parity) &&
  decide (p.strangeness = q.strangeness) && decide (p.charmness = q.charmness) &&
  decide (p.bottomness = q.bottomness) && decide (p.topness = q.topness) &&
  decide (p.baryon_number = q.baryon_number)

/-- The tuple of quantum numbers a `Particle`'s equality and hash are built
from (everything except the `name`/`pid` labels). -/
def Particle.quantumNumbers (p : Particle) :
    ℚ × ℚ × ℚ × Int × Option Spin × Option Int × Option Int × Option Int ×
      Int × Int × Int × Int × Int :=
  (p.mass, p.width, p.spin, p.charge, p.isospin, p.parity, p.c_parity,
    p.g_parity, p.strangeness, p.charmness, p.bottomness, p.topness,
    p.baryon_number)

/-- Modelled from the spec: Python `Particle.__hash__` hashes the same
quantum-number tuple that `__eq__` compares; we model the hash by that tuple
itself, so hashes agree exactly when the quantum numbers agree. -/
def Particle.pHash (p : Particle) :
    ℚ × ℚ × ℚ × Int × Option Spin × Option Int × Option Int × Option Int ×
      Int × Int × Int × Int × Int :=
  p.quantumNumbers

/-- Modelled from the spec: `create_antiparticle` negates the `pid` and flips
the signs of the charge and flavour quantum numbers (spec §8); the isospin
projection flips with them, as pinned by `test_create_antiparticle`. -/
def create_antiparticle (p : Particle) (new_name : String) : Particle :=
  { p with
    name := new_name
    pid := -p.pid
    charge := -p.charge
    isospin := p.isospin.map (fun s => ⟨s.magnitude, -s.projection⟩)
    strangeness := -p.strangeness
    charmness := -p.charmness
    bottomness := -p.bottomness
    topness := -p.topness
    baryon_number := -p.baryon_number }

/-- A `ParticleCollection` is modelled as the list of its members (unique by
name), in insertion order. -/
def ParticleCollection : Type := List Particle

/-- Modelled from the spec and pinned by the tests
(`TestParticleCollection.test_exceptions`, `test_add_warnings`):
`ParticleCollection.add` rejects a particle whose full quantum-number set
duplicates an existing member (fatal `ValueError`), while a particle that
merely reuses an existing name (with different quantum numbers) overwrites
that entry with a logged warning, and a duplicate `pid` also only warns.
Returns either the error message or the `(warnings, new collection)` pair. -/
def ParticleCollection.add (c : List Particle) (p : Particle) :
    Except String (List String × List Particle) :=
  match c.find? (fun q => Particle.peq q p) with
  | some q =>
    .error ("Added particle \"" ++ p.name ++
      "\" is equivalent to existing particle \"" ++ q.name ++ "\"")
  | none =>
    let nameWarnings :=
      if c.any (fun q => q.name == p.name) then
        ["Overwriting particle with name " ++ p.name]
      else []
    let pidWarnings :=
      if c.any (fun q => q.pid == p.pid) then
        ["Particle with PID " ++ toString p.pid ++ " already exists"]
      else []
    .ok (nameWarnings ++ pidWarnings,
      c.filter (fun q => q.name != p.name) ++ [p])

/-! ## Topology model -/

/-- Modelled from the spec: an `Edge` has an optional originating node and an
optional ending node; an absent originating node marks an initial-state edge,
an absent ending node a final-state edge (spec §3). -/
structure Edge where
  originating_node_id : Option Nat
  ending_node_id : Option Nat
deriving DecidableEq

/-- Modelled from the spec: a `Topology` is a set of integer nodes plus a
mapping edge id → `Edge` (spec §3), kept here as lists in ascending id
order. -/
structure Topology where
  nodes : List Nat
  edges : List (Nat × Edge)
deriving DecidableEq

/-- Edge ids with no originating node (initial-state edges), ascending. -/
def Topology.incoming_edge_ids (t : Topology) : List Nat :=
  (t.edges.filter (fun ie => ie.2.originating_node_id == none)).map Prod.fst

/-- Edge ids with no ending node (final-state edges), ascending. -/
def Topology.outgoing_edge_ids (t : Topology) : List Nat :=
  (t.edges.filter (fun ie => ie.2.ending_node_id == none)).map Prod.fst

/-- The edges originating at node `n`, in ascending id order. -/
def Topology.edgesFrom (t : Topology) (n : Nat) : List (Nat × Edge) :=
  t.edges.filter (fun ie => ie.2.originating_node_id == some n)

/-- The edges ending at node `n`, in ascending id order. -/
def Topology.edgesTo (t : Topology) (n : Nat) : List (Nat × Edge) :=
  t.edges.filter (fun ie => ie.2.ending_node_id == some n)

/-- Fuelled helper for `Topology.get_originating_final_state_edge_ids`:
walk the subtree below a node and collect its final-state edge ids. -/
def originatingFinalAux (t : Topology) : Nat → Nat → List Nat
  | 0, _ => []
  | fuel + 1, n =>
    (t.edgesFrom n).flatMap (fun ie =>
      match ie.2.ending_node_id with
      | none => [ie.1]
      | some m => originatingFinalAux t fuel m)

/-- Modelled from the spec: the "originating final-state edge ids" of a node —
the final-state edges reachable in the subtree below it (spec §4.1). -/
def Topology.get_originating_final_state_edge_ids (t : Topology) (n : Nat) :
    List Nat :=
  originatingFinalAux t t.edges.length n

/-- Fuelled helper for `Topology.get_originating_initial_state_edge_ids`:
walk upwards from a node and collect the initial-state edge ids above it. -/
def originatingInitialAux (t : Topology) : Nat → Nat → List Nat
  | 0, _ => []
  | fuel + 1, n =>
    (t.edgesTo n).flatMap (fun ie =>
      match ie.2.originating_node_id with
      | none => [ie.1]
      | some m => originatingInitialAux t fuel m)

/-- Modelled from the spec: the initial-state edge ids from which a node is
reachable (spec §4.1). -/
def Topology.get_originating_initial_state_edge_ids (t : Topology) (n : Nat) :
    List Nat :=
  originatingInitialAux t t.edges.length n

/-! ## Combinatorics engine -/

/-- Lexicographic comparison of two lists of strings (used to sort the
kinematic groupings into canonical order). -/
def cmpStringList : List String → List String → Ordering
  | [], [] => .eq
  | [], _ :: _ => .lt
  | _ :: _, [] => .gt
  | a :: as, b :: bs =>
    match compare a b with
    | .eq => cmpStringList as bs
    | o => o

/-- Insertion of one element into a list sorted by the boolean relation. -/
def insertLe {α : Type} (le : α → α → Bool) (x : α) : List α → List α
  | [] => [x]
  | y :: ys => if le x y then x :: y :: ys else y :: insertLe le x ys

/-- Insertion sort by a boolean relation (stable, executable). -/
def sortLe {α : Type} (le : α → α → Bool) : List α → List α
  | [] => []
  | x :: xs => insertLe le x (sortLe le xs)

/-- Sort a list of particle names alphabetically. -/
def sortNames (l : List String) : List String :=
  sortLe (fun a b => (compare a b) != .gt) l

/-- Sort a list of name groupings lexicographically. -/
def sortGroupings (l : List (List String)) : List (List String) :=
  sortLe (fun a b => (cmpStringList a b) != .gt) l

/-- Modelled from the spec: a `KinematicRepresentation` is a canonical nested
grouping of initial/final-state particle names, used purely as an equivalence
key to discard duplicate permutations (spec §3). -/
structure KinematicRepresentation where
  initial_state : Option (List (List String))
  final_state : List (List String)
deriving DecidableEq, BEq

/-- The particle name assigned to edge `i` by an edge-property mapping. -/
def edgeName (props : List (Nat × (String × List ℚ))) (i : Nat) : String :=
  ((props.lookup i).map Prod.fst).getD ""

/-- Modelled from the spec: compute a candidate's `KinematicRepresentation` —
for every node, the sorted names of the final-state (resp. initial-state)
edges of its subtree, the groupings themselves sorted canonically
(spec §4.2.2, pinned by `TestKinematicRepresentation.test_from_topology`). -/
def _get_kinematic_representation (t : Topology)
    (props : List (Nat × (String × List ℚ))) : KinematicRepresentation :=
  { initial_state := some (sortGroupings (t.nodes.map (fun n =>
      sortNames ((t.get_originating_initial_state_edge_ids n).map
        (edgeName props)))))
    final_state := sortGroupings (t.nodes.map (fun n =>
      sortNames ((t.get_originating_final_state_edge_ids n).map
        (edgeName props)))) }

/-- Fuelled permutation enumerator, emitting permutations in the order of
Python's `itertools.permutations` (lexicographic in the index sequences). -/
def permsAux {α : Type} : Nat → List α → List (List α)
  | 0, _ => [[]]
  | fuel + 1, l =>
    if l.isEmpty then [[]]
    else
      (List.range l.length).flatMap (fun i =>
        match l[i]? with
        | some x => (permsAux fuel (l.eraseIdx i)).map (fun rest => x :: rest)
        | none => [])

/-- All permutations of a list, in Python `itertools.permutations` order. -/
def perms {α : Type} (l : List α) : List (List α) :=
  permsAux l.length l

/-- Cartesian product of a list of choice lists, first list varying slowest
(the lexicographic order of spec §4.2.3). -/
def cartesian {α : Type} : List (List α) → List (List α)
  | [] => [[]]
  | xs :: rest => xs.flatMap (fun x => (cartesian rest).map (fun r => x :: r))

/-- Modelled from the spec: attach the database's allowed spin-projection list
to each particle name (missing `_safe_set_spin_projections`); the particle
database is modelled as a name → allowed-projections list. -/
def _safe_set_spin_projections (names : List String)
    (particles : List (String × List ℚ)) : List (String × List ℚ) :=
  names.map (fun n => (n, (particles.lookup n).getD []))

/-- Modelled from the spec: every bijection of the initial/final particles
onto the incoming/outgoing edges — `n_initial! × n_final!` raw permutations,
each a partially filled edge-property mapping (spec §4.2.1). -/
def _generate_outer_edge_permutations (t : Topology)
    (initial final : List (String × List ℚ)) :
    List (List (Nat × (String × List ℚ))) :=
  (perms initial).flatMap (fun ip =>
    (perms final).map (fun fp =>
      (t.incoming_edge_ids.zip ip) ++ (t.outgoing_edge_ids.zip fp)))

/-- Membership of an allowed grouping inside a computed representation: every
grouping of the allowed representation must literally occur among the
candidate's groupings (pinned by
`TestKinematicRepresentation.test_in_operator`). -/
def containsGroupings (rep allowed : KinematicRepresentation) : Bool :=
  allowed.final_state.all (fun grp => rep.final_state.contains grp) &&
  (match allowed.initial_state, rep.initial_state with
   | none, _ => true
   | some ini, some rini => ini.all (fun grp => rini.contains grp)
   | some _, none => false)

/-- Modelled from the spec: generate the raw outer-edge permutations, then
keep a permutation only if its kinematic representation matches one of the
explicitly allowed groupings (when given) and has not been seen before
(spec §4.2.2). -/
def _generate_kinematic_permutations (t : Topology)
    (initial_state : List (String × List ℚ)) (final_state : List String)
    (particles : List (String × List ℚ))
    (allowed : Option (List KinematicRepresentation)) :
    List (List (Nat × (String × List ℚ))) :=
  let finalWS := _safe_set_spin_projections final_state particles
  let raw := _generate_outer_edge_permutations t initial_state finalWS
  (raw.foldl (fun acc perm =>
    let rep := _get_kinematic_representation t perm
    let okAllowed :=
      match allowed with
      | none => true
      | some al => al.any (fun a => containsGroupings rep a)
    if okAllowed && !(acc.1.contains rep) then
      (acc.1 ++ [rep], acc.2 ++ [perm])
    else acc)
    (([], []) : List KinematicRepresentation ×
      List (List (Nat × (String × List ℚ))))).2

/-- Modelled from the spec: every combination of the allowed spin projections
of the assigned particles, edges iterated in ascending id order and
projections in ascending numeric order within each edge, emitted in the
induced lexicographic order (spec §4.2.3). -/
def _generate_spin_permutations (props : List (Nat × (String × List ℚ))) :
    List (List (Nat × ℚ)) :=
  cartesian (props.map (fun ep => ep.2.2.map (fun pr => (ep.1, pr))))

/-! ## Identical-external-particle combinatorics -/

/-- Modelled from the spec: a `StateTransitionGraph` owns its `Topology` by
value plus a mapping edge id → (particle name, spin projection) (spec §3;
node properties are irrelevant to the claims below and omitted). -/
structure StateTransitionGraph where
  topology : Topology
  edge_props : List (Nat × (String × ℚ))
deriving DecidableEq

/-- Keep the first occurrence of every key along a list, preserving order. -/
def dedupByKey {α β : Type} [BEq β] (key : α → β) (l : List α) : List α :=
  (l.foldl (fun acc x =>
    if acc.1.contains (key x) then acc
    else (acc.1 ++ [key x], acc.2 ++ [x]))
    (([], []) : List β × List α)).2

/-- Group a list of external edge ids by the particle name they carry,
groups ordered by first appearance. -/
def groupIdenticalEdges (ids : List Nat)
    (props : List (Nat × (String × ℚ))) : List (List Nat) :=
  let nameOf := fun i => (((props.lookup i).map Prod.fst).getD "")
  (dedupByKey id (ids.map nameOf)).map (fun nm =>
    ids.filter (fun i => nameOf i == nm))

/-- Turn one permutation choice per identical-particle group into the list of
(edge id, edge id it takes the place of) swap pairs. -/
def swapPairs (groups assignment : List (List Nat)) : List (Nat × Nat) :=
  ((groups.zip assignment).map (fun ga => ga.1.zip ga.2)).flatten

/-- Reattach edges according to the swap pairs: edge `i` takes over the
`Edge` record (hence the originating/ending nodes) of its partner. -/
def applyEdgeSwaps (t : Topology) (pairs : List (Nat × Nat)) : Topology :=
  ⟨t.nodes, t.edges.map (fun ie =>
    match pairs.lookup ie.1 with
    | some j => (ie.1, (t.edges.lookup j).getD ie.2)
    | none => ie)⟩

/-- Swap the edge properties along the same pairs (identical particles, so
the visible particle sequence is unchanged). -/
def applyPropSwaps (props : List (Nat × (String × ℚ)))
    (pairs : List (Nat × Nat)) : List (Nat × (String × ℚ)) :=
  props.map (fun ip =>
    match pairs.lookup ip.1 with
    | some j => (ip.1, (props.lookup j).getD ip.2)
    | none => ip)

/-- The originating-node pattern used as the canonicalization key: for the
external edges in ascending id order, the node each one hangs from
(spec §4.2.4). -/
def externalEdgePattern (t : Topology) : List (Option Nat) :=
  (t.incoming_edge_ids.map (fun i =>
    ((t.edges.lookup i).getD ⟨none, none⟩).ending_node_id)) ++
  (t.outgoing_edge_ids.map (fun i =>
    ((t.edges.lookup i).getD ⟨none, none⟩).originating_node_id))

/-- Modelled from the spec: duplicate an otherwise complete graph once per
distinct assignment of identical external particles to graph positions,
keeping only one representative per originating-node pattern (spec §4.2.4;
`perform_external_edge_identical_particle_combinatorics` is missing from the
snapshot). -/
def perform_external_edge_identical_particle_combinatorics
    (g : StateTransitionGraph) : List StateTransitionGraph :=
  let isGroups := groupIdenticalEdges g.topology.incoming_edge_ids g.edge_props
  let fsGroups := groupIdenticalEdges g.topology.outgoing_edge_ids g.edge_props
  let groups := isGroups ++ fsGroups
  let assignments := cartesian (groups.map (fun grp => perms grp))
  let candidates := assignments.map (fun a =>
    let pairs := swapPairs groups a
    (⟨applyEdgeSwaps g.topology pairs, applyPropSwaps g.edge_props pairs⟩ :
      StateTransitionGraph))
  dedupByKey (fun gr => externalEdgePattern gr.topology) candidates

/-! ## Concrete scenarios from the test suite -/

/-- The single isobar topology for one initial and three final particles:
node 0 receives initial edge 0 and emits final edge 2 and internal edge 1;
node 1 receives edge 1 and emits final edges 3 and 4 (pinned by
`test_combinatorics.py`). -/
def threeBodyDecay : Topology :=
  ⟨[0, 1],
   [(0, ⟨none, some 0⟩), (1, ⟨some 0, some 1⟩), (2, ⟨some 0, none⟩),
    (3, ⟨some 1, none⟩), (4, ⟨some 1, none⟩)]⟩

/-- The slice of the particle database the combinatorics scenarios need:
allowed spin projections per particle name. -/
def pdgSlice : List (String × List ℚ) :=
  [("J/psi(1S)", [-1, 1]), ("gamma", [-1, 1]), ("pi0", [0])]

/-- The two-internal-node double-decay topology of
`test_perform_external_edge_identical_particle_combinatorics`: node 0 decays
into nodes 1 and 2, each emitting two final-state edges. -/
def doubleDecay : Topology :=
  ⟨[0, 1, 2],
   [(0, ⟨none, some 0⟩), (1, ⟨some 0, some 1⟩), (2, ⟨some 0, some 2⟩),
    (3, ⟨some 1, none⟩), (4, ⟨some 1, none⟩), (5, ⟨some 2, none⟩),
    (6, ⟨some 2, none⟩)]⟩

/-- The double-decay graph carrying (π⁻, π⁺) at node 1 and (π⁻, π⁺) at
node 2. -/
def doubleDecayGraph : StateTransitionGraph :=
  ⟨doubleDecay,
   [(0, ("J/psi(1S)", 0)), (1, ("rho(770)0", 0)), (2, ("f(0)(980)", 0)),
    (3, ("pi-", 0)), (4, ("pi+", 0)), (5, ("pi-", 0)), (6, ("pi+", 0))]⟩

/-- The particle names on the final-state edges of a graph, ascending ids. -/
def finalStateNames (g : StateTransitionGraph) : List String :=
  g.topology.outgoing_edge_ids.map (fun i =>
    ((g.edge_props.lookup i).map Prod.fst).getD "")

/-- The originating node of each final-state edge of a graph, ascending
edge ids. -/
def finalStateOriginPattern (g : StateTransitionGraph) : List (Option Nat) :=
  g.topology.outgoing_edge_ids.map (fun i =>
    ((g.topology.edges.lookup i).getD ⟨none, none⟩).originating_node_id)

/-! ## Validating constructors and textual-representation model -/

/-- Modelled from the spec: the Gell-Mann–Nishijima relation among charge,
isospin projection and the flavour quantum numbers,
`Q = I₃ + (B + S + C + B′ + T)/2` (spec §3). -/
def gellmannNishijima (p : Particle) : Bool :=
  decide ((p.charge : ℚ) =
    (match p.isospin with | some sp => sp.projection | none => 0) +
    ((p.baryon_number : ℚ) + (p.strangeness : ℚ) + (p.charmness : ℚ) +
      (p.bottomness : ℚ) + (p.topness : ℚ)) / 2)

/-- The constructor-argument record denoted by the textual repr of a
`Particle` (the isospin appears as its (magnitude, projection) pair). -/
structure ParticleArgs where
  name : String
  pid : Int
  mass : ℚ
  width : ℚ
  spin : ℚ
  charge : Int
  isospin : Option (ℚ × ℚ)
  parity : Option Int
  c_parity : Option Int
  g_parity : Option Int
  strangeness : Int
  charmness : Int
  bottomness : Int
  topness : Int
  baryon_number : Int
deriving DecidableEq

/-- Modelled from the spec: the validating `Particle` constructor (missing
`qrules.particle.Particle.__attrs_post_init__`): the isospin pair must form a
valid `Spin` and the Gell-Mann–Nishijima relation must hold; violation is a
fatal construction error (spec §3, §7). -/
def mkParticle (a : ParticleArgs) : Except String Particle :=
  match (match a.isospin with
         | none => Except.ok none
         | some mp => (mkSpin mp.1 mp.2).map some) with
  | .error e => .error e
  | .ok iso =>
    let p : Particle := ⟨a.name, a.pid, a.mass, a.width, a.spin, a.charge,
      iso, a.parity, a.c_parity, a.g_parity, a.strangeness, a.charmness,
      a.bottomness, a.topness, a.baryon_number⟩
    if gellmannNishijima p then .ok p
    else .error "Fails Gell-Mann–Nishijima formula"

/-- A `Spin` value satisfying the construction invariants. -/
def validSpin (s : Spin) : Bool :=
  exceptIsOk (mkSpin s.magnitude s.projection)

/-- A `Particle` value satisfying the construction invariants (valid isospin
and the Gell-Mann–Nishijima relation). -/
def validParticle (p : Particle) : Bool :=
  gellmannNishijima p &&
    (match p.isospin with | none => true | some sp => validSpin sp)

/-- Modelled from the spec: the constructor expression printed by
`repr(Spin(...))`, as its argument pair. -/
def Spin.reprArgs (s : Spin) : ℚ × ℚ :=
  (s.magnitude, s.projection)

/-- Evaluating a printed `Spin` expression re-runs the validating
constructor. -/
def evalSpinRepr (a : ℚ × ℚ) : Option Spin :=
  exceptToOption (mkSpin a.1 a.2)

/-- Modelled from the spec: the constructor expression printed by
`repr(Particle(...))`, as its argument record (all fields are printed). -/
def Particle.reprArgs (p : Particle) : ParticleArgs :=
  ⟨p.name, p.pid, p.mass, p.width, p.spin, p.charge,
    p.isospin.map (fun sp => (sp.magnitude, sp.projection)), p.parity,
    p.c_parity, p.g_parity, p.strangeness, p.charmness, p.bottomness,
    p.topness, p.baryon_number⟩

/-- Evaluating a printed `Particle` expression re-runs the validating
constructor. -/
def evalParticleRepr (a : ParticleArgs) : Option Particle :=
  exceptToOption (mkParticle a)

/-- The constructor expressions printed by `repr(ParticleCollection(...))`:
one argument record per member. -/
def reprCollection (c : List Particle) : List ParticleArgs :=
  c.map Particle.reprArgs

/-- Evaluating a printed `ParticleCollection` expression reconstructs every
member through the validating constructor. -/
def evalCollectionRepr : List ParticleArgs → Option (List Particle)
  | [] => some []
  | a :: rest =>
    match evalParticleRepr a, evalCollectionRepr rest with
    | some p, some ps => some (p :: ps)
    | _, _ => none

/-- The constructor expression printed by
`repr(_KinematicRepresentation(...))`, as its argument pair. -/
def KinematicRepresentation.reprArgs (k : KinematicRepresentation) :
    Option (List (List String)) × List (List String) :=
  (k.initial_state, k.final_state)

/-- Evaluating a printed `_KinematicRepresentation` expression re-runs the
(total) constructor on already-nested groupings. -/
def evalKinematicRepr
    (a : Option (List (List String)) × List (List String)) :
    Option KinematicRepresentation :=
  some ⟨a.1, a.2⟩

/-! ## Concrete particles used by the collection and equality scenarios -/

/-- A model photon: the massless spin-1 particle of the database slice. -/
def gammaM : Particle :=
  ⟨"gamma", 22, 0, 0, 1, 0, none, some (-1), some (-1), none, 0, 0, 0, 0, 0⟩

/-- A model π⁺ (mass and width rounded to rationals). -/
def piPlusM : Particle :=
  ⟨"pi+", 211, mkRat 7 50, 0, 0, 1, some ⟨1, 1⟩, some (-1), none, some (-1),
    0, 0, 0, 0, 0⟩

/-- A model π⁰ (satisfies the construction invariants). -/
def pi0M : Particle :=
  ⟨"pi0", 111, mkRat 27 200, 0, 0, 0, some ⟨1, 0⟩, some (-1), some 1, some (-1),
    0, 0, 0, 0, 0⟩

/-- `TestParticle.test_eq`'s first particle: "MyParticle", pid 123,
mass 1.2, spin 1, isospin (1, 0). -/
def myParticleA : Particle :=
  ⟨"MyParticle", 123, mkRat 6 5, 0, 1, 0, some ⟨1, 0⟩, none, none, none,
    0, 0, 0, 0, 0⟩

/-- `TestParticle.test_eq`'s comparison particle: same name and pid but
mass 1.5 and width 0.2, and no isospin. -/
def myParticleB : Particle :=
  ⟨"MyParticle", 123, mkRat 3 2, mkRat 1 5, 1, 0, none, none, none, none,
    0, 0, 0, 0, 0⟩

/-! ## Helper lemmas -/

/-- Membership in a cartesian product: exactly the lists picking one element
of each choice list, in order. -/
theorem mem_cartesian {α : Type} {ls : List (List α)} {a : List α} :
    a ∈ cartesian ls ↔ List.Forall₂ (fun x xs => x ∈ xs) a ls := by
  induction ls generalizing a with
  | nil =>
    simp [cartesian, List.forall₂_nil_right_iff]
  | cons xs rest ih =>
    simp only [cartesian, List.mem_flatMap, List.mem_map,
      List.forall₂_cons_right_iff]
    constructor
    · rintro ⟨x, hx, r, hr, rfl⟩
      exact ⟨x, r, hx, ih.mp hr, rfl⟩
    · rintro ⟨x, r, hx, hr, rfl⟩
      exact ⟨x, hx, r, ih.mpr hr, rfl⟩

/-- The sum of a constant over a list. -/
theorem sum_map_constant {α : Type} (xs : List α) (c : ℕ) :
    (xs.map (fun _ => c)).sum = xs.length * c := by
  induction xs with
  | nil => simp
  | cons x xs ih => simp [ih, Nat.succ_mul, Nat.add_comm]

/-- The size of a cartesian product is the product of the choice-list
sizes. -/
theorem cartesian_length {α : Type} (ls : List (List α)) :
    (cartesian ls).length = (ls.map List.length).prod := by
  induction ls with
  | nil => rfl
  | cons xs rest ih =>
    induction xs with
    | nil => simp [cartesian]
    | cons y ys ihy =>
      have h : cartesian ((y :: ys) :: rest)
          = (cartesian rest).map (fun r => y :: r) ++ cartesian (ys :: rest) := by
        simp [cartesian]
      rw [h, List.length_append, List.length_map, ihy, List.map_cons,
        List.prod_cons, List.map_cons, List.prod_cons, List.length_cons, ih]
      ring

/-! ## Claim theorems -/

/-- **C1**: on the two-internal-node double-decay topology whose four
final-state edges carry (π⁻, π⁺) at node 1 and (π⁻, π⁺) at node 2,
`perform_external_edge_identical_particle_combinatorics` returns exactly 4
graphs (not 16); their originating-node patterns over the final-state edges
in ascending edge-id order are exactly (1,1,2,2), (1,2,2,1), (2,1,1,2),
(2,2,1,1), and every returned graph keeps the final-state particle sequence
(π⁻, π⁺, π⁻, π⁺). -/
theorem identical_particle_combinatorics_double_decay :
    (perform_external_edge_identical_particle_combinatorics
        doubleDecayGraph).length = 4 ∧
    (perform_external_edge_identical_particle_combinatorics
        doubleDecayGraph).map finalStateOriginPattern =
      [[some 1, some 1, some 2, some 2], [some 1, some 2, some 2, some 1],
       [some 2, some 1, some 1, some 2], [some 2, some 2, some 1, some 1]] ∧
    (perform_external_edge_identical_particle_combinatorics
        doubleDecayGraph).all
      (fun g => finalStateNames g == ["pi-", "pi+", "pi-", "pi+"]) = true :=
  ⟨rfl, rfl, rfl⟩

/-- **C4**: for the three-body isobar topology with initial state J/psi(1S)
(projections ±1) and final state [γ, π⁰, π⁰], the raw outer-edge permutation
step yields 3!·1! = 6 permutations, kinematic deduplication keeps exactly 2
of them, and restricting the allowed kinematic groupings to the single
grouping [π⁰, π⁰] keeps exactly 1. -/
theorem kinematic_dedup_jpsi_gamma_pi0_pi0 :
    (_generate_outer_edge_permutations threeBodyDecay
        [("J/psi(1S)", [-1, 1])]
        (_safe_set_spin_projections ["gamma", "pi0", "pi0"] pdgSlice)).length
      = 6 ∧
    (_generate_kinematic_permutations threeBodyDecay
        [("J/psi(1S)", [-1, 1])] ["gamma", "pi0", "pi0"] pdgSlice
        none).length = 2 ∧
    (_generate_kinematic_permutations threeBodyDecay
        [("J/psi(1S)", [-1, 1])] ["gamma", "pi0", "pi0"] pdgSlice
        (some [⟨none, [["pi0", "pi0"]]⟩])).length = 1 :=
  ⟨rfl, rfl, rfl⟩

/-- **C5**: the spin-projection permutation step emits exactly every
combination of the allowed projections of the assigned particles — an
assignment belongs to the output iff it picks, edge by edge, one allowed
projection — with as many outputs as the product of the per-edge choice
counts; and on the J/psi(1S) → γ π⁰ π⁰ candidate the 4 combinations are
emitted in the lexicographic order with edge 0 running (−1, −1, +1, +1) and
the γ edge alternating (−1, +1, −1, +1). -/
theorem spin_permutations_complete_and_ordered :
    (∀ (props : List (Nat × (String × List ℚ))) (a : List (Nat × ℚ)),
        a ∈ _generate_spin_permutations props ↔
          List.Forall₂ (fun (ap : Nat × ℚ) (ep : Nat × (String × List ℚ)) =>
            ap.1 = ep.1 ∧ ap.2 ∈ ep.2.2) a props) ∧
    (∀ props, (_generate_spin_permutations props).length =
        (props.map (fun ep => ep.2.2.length)).prod) ∧
    _generate_spin_permutations
        [(0, ("J/psi(1S)", [-1, 1])), (2, ("gamma", [-1, 1])),
         (3, ("pi0", [0])), (4, ("pi0", [0]))] =
      [[(0, -1), (2, -1), (3, 0), (4, 0)], [(0, -1), (2, 1), (3, 0), (4, 0)],
       [(0, 1), (2, -1), (3, 0), (4, 0)], [(0, 1), (2, 1), (3, 0), (4, 0)]] := by
  refine ⟨fun props a => ?_, fun props => ?_, rfl⟩
  · rw [_generate_spin_permutations, mem_cartesian, List.forall₂_map_right_iff]
    constructor
    · refine fun h => h.imp (fun ap ep hm => ?_)
      rcases List.mem_map.mp hm with ⟨pr, hpr, hap⟩
      cases hap
      exact ⟨rfl, hpr⟩
    · refine fun h => h.imp (fun ap ep hm => ?_)
      rcases ap with ⟨i, pr⟩
      rcases hm with ⟨h1, h2⟩
      cases h1
      exact List.mem_map.mpr ⟨pr, h2, rfl⟩
  · rw [_generate_spin_permutations, cartesian_length, List.map_map]
    exact congrArg List.prod (List.map_congr_left (fun ep _ => by simp))

/-- **C2**: whenever the defined side of `c_parity_conservation` has C-parity
product `C ∈ {−1, +1}` and the undefined side is exactly a fermion pair —
two edges with opposite `pid` sign and the same half-integer spin
magnitude — the rule with node input `(l, s)` (both non-negative) returns
`true` iff `(s + l) mod 2 = (1 − C)/2`. -/
theorem c_parity_fermion_pair
    (ins : List CParityEdgeInput) (C : Int) (_hC : C = -1 ∨ C = 1)
    (hins : cParityProduct ins = some C) (m : ℚ) (hm : m.den = 2)
    (q : Int) (l s : ℕ) :
    c_parity_conservation ins
      [⟨m, q, none⟩, ⟨m, -q, none⟩] (some ⟨(l : ℚ), (s : ℚ)⟩) =
      (((s : Int) + (l : Int)) % 2 == (1 - C) / 2) := by
  have houts : cParityProduct [⟨m, q, none⟩, ⟨m, -q, none⟩] = none := rfl
  have hsum : (s : ℚ) + (l : ℚ) = ((s + l : ℕ) : ℚ) := by push_cast; ring
  simp only [c_parity_conservation, hins, houts, cParityDerivedCheck, hsum,
    neg_neg, beq_self_eq_true, Bool.and_self, if_true, hm,
    Rat.den_natCast, Rat.num_natCast]
  norm_num

/-- **C3**: whenever the defined side of `c_parity_conservation` has C-parity
product `C ∈ {−1, +1}` and the undefined side is exactly a boson pair — two
edges with opposite `pid` sign and the same integer spin magnitude — the
derived C-parity equals `(−1)^l` and the rule with orbital angular momentum
`l` returns `true` iff `(−1)^l = C`. -/
theorem c_parity_boson_pair
    (ins : List CParityEdgeInput) (C : Int) (_hC : C = -1 ∨ C = 1)
    (hins : cParityProduct ins = some C) (m : ℚ) (hm : m.den = 1)
    (q : Int) (l : ℕ) (s : ℚ) :
    derivedBosonCParity (l : ℚ) = some ((-1) ^ l) ∧
    c_parity_conservation ins
      [⟨m, q, none⟩, ⟨m, -q, none⟩] (some ⟨(l : ℚ), s⟩) =
      ((-1 : Int) ^ l == C) := by
  have houts : cParityProduct [⟨m, q, none⟩, ⟨m, -q, none⟩] = none := rfl
  have hpow : (if (l : ℤ) % 2 = 0 then (1 : ℤ) else -1) = (-1) ^ l := by
    rcases Nat.even_or_odd l with he | ho
    · have h2 : l % 2 = 0 := Nat.even_iff.mp he
      rw [if_pos (by omega), he.neg_one_pow]
    · have h2 : l % 2 = 1 := Nat.odd_iff.mp ho
      rw [if_neg (by omega), ho.neg_one_pow]
  have hd : derivedBosonCParity (l : ℚ) = some ((-1) ^ l) := by
    rw [derivedBosonCParity, if_pos (by rw [Rat.den_natCast]),
      Rat.num_natCast, hpow]
  refine ⟨hd, ?_⟩
  simp only [c_parity_conservation, hins, houts, cParityDerivedCheck, hd,
    neg_neg, beq_self_eq_true, Bool.and_self, if_true, hm]

/-- Witness for `c_parity_fermion_pair`: a spin-½ pair with pids ±100 below a
defined side of C-parity −1 at `(l, s) = (1, 0)`. -/
theorem c_parity_fermion_pair_witness :
    c_parity_conservation [⟨0, 123, some (-1)⟩]
      [⟨mkRat 1 2, 100, none⟩, ⟨mkRat 1 2, -100, none⟩]
      (some ⟨((1 : ℕ) : ℚ), ((0 : ℕ) : ℚ)⟩) =
      ((((0 : ℕ) : Int) + ((1 : ℕ) : Int)) % 2 == (1 - (-1)) / 2) :=
  c_parity_fermion_pair [⟨0, 123, some (-1)⟩] (-1) (Or.inl rfl) (by decide)
    (mkRat 1 2) (by decide) 100 1 0

/-- Witness for `c_parity_boson_pair`: a spin-0 pair with pids ±100 below a
defined side of C-parity +1 at `l = 2`. -/
theorem c_parity_boson_pair_witness :
    derivedBosonCParity ((2 : ℕ) : ℚ) = some ((-1) ^ 2) ∧
    c_parity_conservation [⟨0, 123, some 1⟩]
      [⟨0, 100, none⟩, ⟨0, -100, none⟩]
      (some ⟨((2 : ℕ) : ℚ), 0⟩) = ((-1 : Int) ^ 2 == 1) :=
  c_parity_boson_pair [⟨0, 123, some 1⟩] 1 (Or.inr rfl) (by decide)
    0 (by decide) 100 2 0

/-- A successful `mkSpin` call returns exactly the raw pair it was given. -/
theorem mkSpin_ok (m p : ℚ) (h : exceptIsOk (mkSpin m p) = true) :
    mkSpin m p = .ok ⟨m, p⟩ := by
  unfold mkSpin at h ⊢
  split_ifs at h ⊢ <;> simp_all [exceptIsOk]

/-- **C6**: a `Spin(m, p)` construction succeeds exactly when `m ≥ 0`, `m` is
a multiple of ½, `p − m` is an integer and `|p| ≤ m`; when any invariant is
violated the constructor signals an error instead of producing a value. -/
theorem spin_construction_invariants (m p : ℚ) :
    exceptIsOk (mkSpin m p) = true ↔
      (0 ≤ m ∧ (2 * m).den = 1 ∧ (p - m).den = 1 ∧ |p| ≤ m) := by
  unfold mkSpin exceptIsOk
  split_ifs with h1 h2 h3 h4 <;>
    simp_all [not_lt, le_of_not_lt, not_le]

/-- **C7** (counterexample to the claim as stated): adding to a collection a
particle that reuses the name "pi+" of an existing member but differs in its
quantum numbers (width 1 instead of 0) is *not* rejected — the add succeeds,
merely logging overwrite/PID warnings. -/
theorem collection_add_name_clash_counterexample :
    exceptIsOk (ParticleCollection.add [piPlusM]
      { piPlusM with width := 1 }) = true ∧
    ParticleCollection.add [piPlusM] { piPlusM with width := 1 } =
      .ok (["Overwriting particle with name pi+",
            "Particle with PID 211 already exists"],
           [{ piPlusM with width := 1 }]) :=
  ⟨rfl, rfl⟩

/-- **C7** (amended): adding a particle whose full quantum-number set
duplicates an existing member is rejected as a fatal error; adding a particle
that merely reuses an existing name while its quantum numbers differ is
accepted (overwriting the entry) with a non-empty warning list, not an
error. -/
theorem collection_add_duplicate_handling (c : List Particle) (p : Particle) :
    ((∃ q ∈ c, Particle.peq q p = true) →
      exceptIsOk (ParticleCollection.add c p) = false) ∧
    ((∀ q ∈ c, Particle.peq q p = false) → (∃ q ∈ c, q.name = p.name) →
      ∃ warnings rest, ParticleCollection.add c p = .ok (warnings, rest) ∧
        warnings ≠ []) := by
  constructor
  · rintro ⟨q, hq, hpeq⟩
    rcases hfind : c.find? (fun r => Particle.peq r p) with _ | r
    · exact absurd hpeq (by simpa using List.find?_eq_none.mp hfind q hq)
    · simp [ParticleCollection.add, hfind, exceptIsOk]
  · rintro hall ⟨q, hq, hname⟩
    have hfind : c.find? (fun r => Particle.peq r p) = none :=
      List.find?_eq_none.mpr (fun r hr => by simp [hall r hr])
    have hany : c.any (fun r => r.name == p.name) = true :=
      List.any_eq_true.mpr ⟨q, hq, by simp [hname]⟩
    refine ⟨("Overwriting particle with name " ++ p.name) ::
        (if c.any (fun r => r.pid == p.pid) then
          ["Particle with PID " ++ toString p.pid ++ " already exists"]
         else []),
      c.filter (fun r => r.name != p.name) ++ [p], ?_, by simp⟩
    simp [ParticleCollection.add, hfind, hany]

/-- Witness for `collection_add_duplicate_handling`: the "gamma_new"
quantum-number duplicate of `TestParticleCollection.test_exceptions` is
rejected, and the same-name different-width π⁺ of `test_add_warnings` is
accepted with warnings. -/
theorem collection_add_duplicate_handling_witness :
    exceptIsOk (ParticleCollection.add [gammaM]
      { gammaM with name := "gamma_new" }) = false ∧
    ∃ warnings rest,
      ParticleCollection.add [piPlusM] { piPlusM with mass := 1 } =
        .ok (warnings, rest) ∧ warnings ≠ [] :=
  ⟨(collection_add_duplicate_handling [gammaM]
      { gammaM with name := "gamma_new" }).1 (by decide),
   (collection_add_duplicate_handling [piPlusM]
      { piPlusM with mass := 1 }).2 (by decide) (by decide)⟩

/-- **C8**: two particles are equal (and hash equal) exactly when all their
quantum numbers — mass and width included — match; the `name`/`pid` labels
play no role: relabelling preserves equality, while the same-label pair
`myParticleA`/`myParticleB` differing in mass and width is unequal. -/
theorem particle_equality_iff_quantum_numbers :
    (∀ p q : Particle, Particle.peq p q = true ↔
      p.quantumNumbers = q.quantumNumbers) ∧
    (∀ p q : Particle, Particle.pHash p = Particle.pHash q ↔
      p.quantumNumbers = q.quantumNumbers) ∧
    (∀ (p : Particle) (n : String) (i : Int),
      Particle.peq p { p with name := n, pid := i } = true) ∧
    Particle.peq myParticleA myParticleB = false := by
  refine ⟨fun p q => ?_, fun p q => Iff.rfl, fun p n i => ?_, by decide⟩
  · simp only [Particle.peq, Particle.quantumNumbers, Prod.mk.injEq,
      Bool.and_eq_true, decide_eq_true_eq]
    tauto
  · simp [Particle.peq]

/-- **C9**: `create_antiparticle` is an involution up to quantum-number
equality — applying it twice restores every quantum number (including the
`pid`, which is negated twice), independently of the new names chosen. -/
theorem create_antiparticle_involution (p : Particle) (n1 n2 : String) :
    Particle.peq (create_antiparticle (create_antiparticle p n1) n2) p
      = true ∧
    (create_antiparticle (create_antiparticle p n1) n2).pid = p.pid := by
  cases p with
  | mk name pid mass width spin charge isospin parity cp gp s c b t bn =>
    cases isospin with
    | none => simp [create_antiparticle, Particle.peq]
    | some sp =>
      cases sp
      simp [create_antiparticle, Particle.peq]

/-- **C10**: the textual representation of the value types round-trips —
evaluating the printed constructor expression of a valid `Spin`, `Particle`,
`ParticleCollection` or `KinematicRepresentation` reconstructs an equal
value. -/
theorem repr_round_trip :
    (∀ s : Spin, validSpin s = true → evalSpinRepr s.reprArgs = some s) ∧
    (∀ p : Particle, validParticle p = true →
      evalParticleRepr p.reprArgs = some p) ∧
    (∀ c : List Particle, c.all validParticle = true →
      evalCollectionRepr (reprCollection c) = some c) ∧
    (∀ k : KinematicRepresentation, evalKinematicRepr k.reprArgs = some k) := by
  have spinRT : ∀ s : Spin, validSpin s = true →
      evalSpinRepr s.reprArgs = some s := by
    intro s hs
    cases s with
    | mk mag proj =>
      have h := mkSpin_ok mag proj hs
      simp [evalSpinRepr, Spin.reprArgs, h, exceptToOption]
  have particleRT : ∀ p : Particle, validParticle p = true →
      evalParticleRepr p.reprArgs = some p := by
    intro p hp
    rw [validParticle, Bool.and_eq_true] at hp
    obtain ⟨hg, hiso⟩ := hp
    cases p with
    | mk nm pid mass width spin charge isospin parity cp gp st ch bo tp bn =>
      cases isospin with
      | none =>
        simp only [evalParticleRepr, Particle.reprArgs, mkParticle,
          Option.map_none']
        simp_all [exceptToOption]
      | some sp =>
        cases sp with
        | mk mag proj =>
          have hok := mkSpin_ok mag proj hiso
          simp only [evalParticleRepr, Particle.reprArgs, mkParticle,
            Option.map_some']
          rw [hok]
          simp_all [exceptToOption, Except.map]
  have collectionRT : ∀ c : List Particle, c.all validParticle = true →
      evalCollectionRepr (reprCollection c) = some c := by
    intro c
    induction c with
    | nil => intro _; rfl
    | cons p rest ih =>
      intro hc
      rw [List.all_cons, Bool.and_eq_true] at hc
      obtain ⟨hp, hrest⟩ := hc
      simp only [reprCollection, List.map_cons, evalCollectionRepr]
      rw [particleRT p hp]
      have := ih hrest
      rw [reprCollection] at this
      rw [this]
  refine ⟨spinRT, particleRT, collectionRT, fun k => ?_⟩
  cases k
  rfl

/-- Witness for `repr_round_trip`: a concrete valid spin, particle (a model
π⁰), singleton collection and kinematic representation all round-trip. -/
theorem repr_round_trip_witness :
    evalSpinRepr (Spin.reprArgs ⟨1, 0⟩) = some ⟨1, 0⟩ ∧
    evalParticleRepr (Particle.reprArgs pi0M) = some pi0M ∧
    evalCollectionRepr (reprCollection [pi0M]) = some [pi0M] ∧
    evalKinematicRepr
        (KinematicRepresentation.reprArgs ⟨none, [["pi0", "pi0"]]⟩) =
      some ⟨none, [["pi0", "pi0"]]⟩ :=
  ⟨repr_round_trip.1 ⟨1, 0⟩ (by norm_num [validSpin, mkSpin, exceptIsOk]),
   repr_round_trip.2.1 pi0M
     (by norm_num [validParticle, gellmannNishijima, validSpin, mkSpin,
       exceptIsOk, pi0M]),
   repr_round_trip.2.2.1 [pi0M]
     (by norm_num [validParticle, gellmannNishijima, validSpin, mkSpin,
       exceptIsOk, pi0M]),
   repr_round_trip.2.2.2 ⟨none, [["pi0", "pi0"]]⟩⟩

end QRules
